import Mathlib

/-!
Shallow embedding of `src/roipoly.py` (interactive polygonal ROI selection).

Coordinates are modelled as rationals (the source stores click coordinates
verbatim; no rounding behaviour is relied on by any claim).  The matplotlib
rendering layer is external: we keep only the state that the source itself
reads back (the `self.line` handle and its data, the connection state of the
two event callbacks, and whether the figure has been closed).  The Python
`warnings` machinery is modelled as an explicit log of emitted warnings; the
module installs the `always` filter for DeprecationWarning (line 12 of the
source), so each call of `deprecation` emits one warning.  Quote characters
inside the warning message texts are elided.
-/

/-- The log of warnings emitted so far (module line 12 sets the `always`
filter, so every `warnings.warn` call appends an entry). -/
structure Warnings where
  log : List String
  deriving DecidableEq

/-- Function `deprecation` (source lines 15-16): emits the message as a
DeprecationWarning; with the `always` filter this appends one log entry on
every call. -/
def deprecation (message : String) (w : Warnings) : Warnings :=
  { log := w.log ++ [message] }

/-- A matplotlib mouse event, restricted to the fields the source reads:
whether it hit the session axes (`event.inaxes == self.ax`), the button
(`none`, primary `some 1`, secondary `some 3`), the double-click flag and the
data coordinates. -/
structure Event where
  inaxes : Bool
  button : Option Nat
  dblclick : Bool
  xdata : ℚ
  ydata : ℚ
  deriving DecidableEq

/-- The mutable state of a `RoiPoly` session (source lines 50-66).
`line` holds the data of the current `self.line` artist (`none` models the
Python `None`); `cid1` / `cid2` record whether the motion and button-press
callbacks are still connected; `figClosed` records whether `plt.close` has
been called on the owning figure. -/
structure RoiState where
  start_point : Option (ℚ × ℚ)
  previous_point : Option (ℚ × ℚ)
  x : List ℚ
  y : List ℚ
  line : Option (List ℚ × List ℚ)
  completed : Bool
  color : String
  close_figure : Bool
  cid1 : Bool
  cid2 : Bool
  figClosed : Bool
  deriving DecidableEq

/-- The field initialisation performed by `RoiPoly.__init__`
(source lines 50-66): empty point lists, no line, not completed, both
callbacks connected. -/
def RoiPoly.mk_state (color : String) (close_fig : Bool) : RoiState :=
  { start_point := none
    previous_point := none
    x := []
    y := []
    line := none
    completed := false
    color := color
    close_figure := close_fig
    cid1 := true
    cid2 := true
    figClosed := false }

/-- Constructor `RoiPoly.__init__` (source lines 21-69).  If `roicolor` is given it emits
a deprecation warning and overrides `color` (lines 41-43).  Figure display
(`show_fig`) is pure rendering and leaves the state unchanged. -/
def RoiPoly.init (w : Warnings) (color : String) (roicolor : Option String)
    (close_fig : Bool) : Warnings × RoiState :=
  match roicolor with
  | some rc =>
      (deprecation "Use color instead of roicolor!" w, RoiPoly.mk_state rc close_fig)
  | none => (w, RoiPoly.mk_state color close_fig)

/-- Handler `RoiPoly.__motion_notify_callback` (source lines 162-172): while a line
exists and no button or the primary button is involved, the rubber-band
segment is redrawn from `previous_point` to the cursor.  The committed vertex
lists `x`, `y` are never touched here. -/
def RoiPoly.motion_notify_callback (s : RoiState) (e : Event) : RoiState :=
  if e.inaxes then
    if (e.button = none ∨ e.button = some 1) ∧ s.line ≠ none then
      let pp := s.previous_point.getD (0, 0)
      { s with line := some ([pp.1, e.xdata], [pp.2, e.ydata]) }
    else s
  else s

/-- Handler `RoiPoly.__button_press_callback` (source lines 174-230).  A primary
single click appends a vertex (creating the line on the first click); a
closing gesture (primary double click or secondary single click) while a line
exists completes the ROI: with exactly one recorded vertex only `completed`
is set (lines 212-214), otherwise the callbacks are disconnected, the closing
edge drawn and the line handle cleared (lines 215-226).  Afterwards, when not
running interactively and `close_figure` is set, the figure is closed
(lines 228-230). -/
def RoiPoly.button_press_callback (interactive : Bool) (s : RoiState)
    (e : Event) : RoiState :=
  if e.inaxes then
    let x := e.xdata
    let y := e.ydata
    if e.button = some 1 ∧ e.dblclick = false then
      if s.line = none then
        { s with line := some ([x, x], [y, y])
                 start_point := some (x, y)
                 previous_point := some (x, y)
                 x := [x]
                 y := [y] }
      else
        let pp := s.previous_point.getD (0, 0)
        { s with line := some ([pp.1, x], [pp.2, y])
                 previous_point := some (x, y)
                 x := s.x ++ [x]
                 y := s.y ++ [y] }
    else if ((e.button = some 1 ∧ e.dblclick = true) ∨
             (e.button = some 3 ∧ e.dblclick = false)) ∧ s.line ≠ none then
      let s1 :=
        if s.x.length = 1 ∧ s.y.length = 1 then
          { s with completed := true }
        else
          { s with cid1 := false
                   cid2 := false
                   line := none
                   completed := true }
      if interactive = false ∧ s1.close_figure = true then
        { s1 with figClosed := true }
      else s1
    else s
  else s

/-- An event delivered by the matplotlib canvas: either a motion-notify or a
button-press event. -/
inductive Ev where
  | motion (e : Event)
  | press (e : Event)
  deriving DecidableEq

/-- Event dispatch: the canvas invokes a callback only while its connection
(`mpl_connect` handle) has not been disconnected. -/
def dispatch (interactive : Bool) (s : RoiState) : Ev → RoiState
  | .motion e => if s.cid1 then RoiPoly.motion_notify_callback s e else s
  | .press e => if s.cid2 then RoiPoly.button_press_callback interactive s e else s

/-- Method `RoiPoly.get_roi_coordinates` (source lines 151-160): `zip(x, y)`. -/
def RoiPoly.get_roi_coordinates (s : RoiState) : List (ℚ × ℚ) :=
  s.x.zip s.y

/-- The closed vertex list built inside `RoiPoly.get_mask` (source lines
94-95): `[(x[0], y[0])] + list(zip(reversed(x), reversed(y)))`. -/
def RoiPoly.poly_verts (xs ys : List ℚ) : List (ℚ × ℚ) :=
  (xs.getD 0 0, ys.getD 0 0) :: (xs.reverse.zip ys.reverse)

/-- Does the horizontal ray from `p` to the right cross the edge `a`-`b`?
(Even-odd ray-casting crossing test; a horizontal or zero-length edge
contributes no crossing.) -/
def crossesRay (p a b : ℚ × ℚ) : Bool :=
  decide (((a.2 ≤ p.2 ∧ p.2 < b.2) ∨ (b.2 ≤ p.2 ∧ p.2 < a.2)) ∧
    p.1 < a.1 + (p.2 - a.2) * (b.1 - a.1) / (b.2 - a.2))

/-- Is `p` on the non-degenerate segment from `a` to `b`?  (A zero-length
segment is just a repeated vertex and carries no boundary.) -/
def onSegment (p a b : ℚ × ℚ) : Bool :=
  decide (a ≠ b ∧ (b.1 - a.1) * (p.2 - a.2) = (b.2 - a.2) * (p.1 - a.1) ∧
    min a.1 b.1 ≤ p.1 ∧ p.1 ≤ max a.1 b.1 ∧
    min a.2 b.2 ≤ p.2 ∧ p.2 ≤ max a.2 b.2)

/-- The edges of the implicitly closed polygon through `verts`: consecutive
pairs plus the edge from the last vertex back to the first. -/
def closedEdges (verts : List (ℚ × ℚ)) : List ((ℚ × ℚ) × (ℚ × ℚ)) :=
  match verts with
  | [] => []
  | v :: _ => verts.zip (verts.tail ++ [v])

/-- Modelled from the spec: the point-in-polygon containment test of the
external collaborator `matplotlib.path.Path.contains_points` is not part of
this repository; the spec requires a standard even-odd ray-casting test with
grid points exactly on the polygon boundary treated as inside, and a
degenerate single-point polygon matching no pixels. -/
def containsPoint (verts : List (ℚ × ℚ)) (p : ℚ × ℚ) : Bool :=
  decide ((closedEdges verts).countP (fun ab => crossesRay p ab.1 ab.2) % 2 = 1) ||
    (closedEdges verts).any (fun ab => onSegment p ab.1 ab.2)

/-- Method `RoiPoly.get_mask` (source lines 78-104): the image fixes the shape
`(ny, nx)`; every integer grid point `(col, row)` is tested against the
closed polygon built by `poly_verts`, and the flat result is reshaped to
`(ny, nx)`, so `mask[row][col] = contains (col, row)`. -/
def RoiPoly.get_mask (s : RoiState) (image : List (List ℚ)) : List (List Bool) :=
  (List.range image.length).map fun row =>
    (List.range (image.getD 0 []).length).map fun col =>
      containsPoint (RoiPoly.poly_verts s.x s.y) ((col : ℚ), (row : ℚ))

/-- Embeds `np.extract(mask, image)` for same-shaped 2D arguments: the values of
`image`, in row-major order, at the positions where `mask` is true. -/
def extract (mask : List (List Bool)) (image : List (List ℚ)) : List ℚ :=
  ((mask.zip image).map fun rc =>
    (rc.1.zip rc.2).filterMap fun bv => if bv.1 then some bv.2 else none).flatten

/-- Embeds `np.mean`: the sum of the values divided by their number. -/
def npMean (vs : List ℚ) : ℚ :=
  vs.sum / (vs.length : ℚ)

/-- Embeds the radicand of `np.std` with the default `ddof=0`: the mean of the squared deviations
from the mean (population variance). -/
def npVar (vs : List ℚ) : ℚ :=
  ((vs.map fun v => (v - npMean vs) ^ 2).sum) / (vs.length : ℚ)

/-- Embeds `np.std`: the square root of the population variance. -/
noncomputable def npStd (vs : List ℚ) : ℝ :=
  Real.sqrt ((npVar vs : ℚ) : ℝ)

/-- Method `RoiPoly.get_mean_and_std` (source lines 113-130): mean and standard
deviation of the pixel values extracted where the mask is true. -/
noncomputable def RoiPoly.get_mean_and_std (s : RoiState) (image : List (List ℚ)) :
    ℚ × ℝ :=
  (npMean (extract (RoiPoly.get_mask s image) image),
   npStd (extract (RoiPoly.get_mask s image) image))

/-- The data of a rendered `Line2D` artist (the observable output of the
display helpers). -/
structure LineSpec where
  xdata : List ℚ
  ydata : List ℚ
  color : String
  deriving DecidableEq

/-- Method `RoiPoly.display_roi` (source lines 106-111): draws the closed outline
`x + [x[0]]`, `y + [y[0]]` in the session color. -/
def RoiPoly.display_roi (s : RoiState) : LineSpec :=
  { xdata := s.x ++ [s.x.getD 0 0]
    ydata := s.y ++ [s.y.getD 0 0]
    color := s.color }

/-- Method `RoiPoly.display_mean` (source lines 132-149): places the statistics text
at the first vertex in the session color; modelled as the payload
(position, statistics, color). -/
noncomputable def RoiPoly.display_mean (s : RoiState) (image : List (List ℚ)) :
    (ℚ × ℚ) × (ℚ × ℝ) × String :=
  ((s.x.getD 0 0, s.y.getD 0 0), RoiPoly.get_mean_and_std s image, s.color)

/-- Deprecated alias `RoiPoly.displayMean` (source lines 233-235). -/
noncomputable def RoiPoly.displayMean (w : Warnings) (s : RoiState)
    (image : List (List ℚ)) : Warnings × ((ℚ × ℚ) × (ℚ × ℝ) × String) :=
  (deprecation "Use display_mean instead of displayMean!" w,
   RoiPoly.display_mean s image)

/-- Deprecated alias `RoiPoly.getMask` (source lines 237-239). -/
def RoiPoly.getMask (w : Warnings) (s : RoiState) (image : List (List ℚ)) :
    Warnings × List (List Bool) :=
  (deprecation "Use get_mask instead of getMask!" w, RoiPoly.get_mask s image)

/-- Deprecated alias `RoiPoly.displayROI` (source lines 241-243). -/
def RoiPoly.displayROI (w : Warnings) (s : RoiState) : Warnings × LineSpec :=
  (deprecation "Use display_roi instead of displayROI!" w, RoiPoly.display_roi s)

/-- Deprecated module-level alias `roipoly` (source lines 322-324): warns and
forwards to the `RoiPoly` constructor. -/
def roipoly (w : Warnings) (color : String) (roicolor : Option String)
    (close_fig : Bool) : Warnings × RoiState :=
  RoiPoly.init (deprecation "Import RoiPoly instead of roipoly!" w)
    color roicolor close_fig

/-- The state of a `MultiRoi` collection (source lines 246-280): the color
palette, the optional caller-provided name list, the insertion-ordered
name-to-session dictionary and whether the shared figure has been closed. -/
structure MultiRoiState where
  color_cycle : List String
  roi_names : Option (List String)
  rois : List (String × RoiState)
  figClosed : Bool
  deriving DecidableEq

/-- The default `color_cycle` parameter of `MultiRoi.__init__`
(source line 250). -/
def default_color_cycle : List String :=
  ["b", "g", "r", "c", "m", "y", "k"]

/-- Python dictionary assignment `d[k] = v` on an insertion-ordered
dictionary: an existing key keeps its position and gets the new value, a
fresh key is appended at the end. -/
def dictInsert (k : String) (v : RoiState) :
    List (String × RoiState) → List (String × RoiState)
  | [] => [(k, v)]
  | (k', v') :: rest =>
      if k' = k then (k, v) :: rest else (k', v') :: dictInsert k v rest

/-- The name chosen by `MultiRoi.add` (source lines 299-305): with
`count = len(rois)` and `idx = count % len(color_cycle)`, the name is
`roi_names[idx]` when a name list is given and `idx` is in range, else
`str(count + 1)`. -/
def MultiRoi.nextName (m : MultiRoiState) : String :=
  let count := m.rois.length
  let idx := count % m.color_cycle.length
  match m.roi_names with
  | some names =>
      if idx < names.length then names.getD idx "" else toString (count + 1)
  | none => toString (count + 1)

/-- Method `MultiRoi.add` (source lines 291-314): ignored when the collection is
non-empty and some session is not completed; otherwise a fresh `RoiPoly`
session (color `color_cycle[idx]`, `close_fig=False`, `show_fig=False`) is
stored under the chosen name. -/
def MultiRoi.add (m : MultiRoiState) : MultiRoiState :=
  if m.rois ≠ [] ∧ ¬ (m.rois.all fun r => r.2.completed) then m
  else
    let idx := m.rois.length % m.color_cycle.length
    let roi := RoiPoly.mk_state (m.color_cycle.getD idx "") false
    { m with rois := dictInsert (MultiRoi.nextName m) roi m.rois }

/-- Method `MultiRoi.finish` (source lines 316-318): closes the shared figure. -/
def MultiRoi.finish (m : MultiRoiState) : MultiRoiState :=
  { m with figClosed := true }

/-- Scenario helper (not source code): the user completes every open session
(each `RoiPoly` reaches `completed = True` through its closing gesture). -/
def completeAll (m : MultiRoiState) : MultiRoiState :=
  { m with rois := m.rois.map fun p => (p.1, { p.2 with completed := true }) }

/-- Scenario helper (not source code): `n` accepted additions, the user
completing the new ROI after each one. -/
def addCompleteN : Nat → MultiRoiState → MultiRoiState
  | 0, m => m
  | n + 1, m => completeAll (MultiRoi.add (addCompleteN n m))

/-- Modelled from the spec: the naming rule the spec states for the k-th
accepted addition, by position `k` in the name list with the 1-based numeric
fallback once the name list is exhausted. -/
def specNameByPosition (ns : List String) (k : Nat) : String :=
  if k < ns.length then ns.getD k "" else toString (k + 1)

/-- Modelled from the spec: the closed polygon vertex list the spec describes
for `get_mask`, the first vertex followed by the reverse of the remaining
vertices, no vertex duplicated. -/
def specClosedVerts (verts : List (ℚ × ℚ)) : List (ℚ × ℚ) :=
  verts.headD (0, 0) :: verts.tail.reverse

/-! Concrete scenario data used by the claim theorems below. -/

/-- A fresh session (the state right after `RoiPoly()` with default flags). -/
def c1s0 : RoiState := RoiPoly.mk_state "b" true

/-- A primary single click at (0, 0) inside the axes. -/
def c1e1 : Event :=
  { inaxes := true, button := some 1, dblclick := false, xdata := 0, ydata := 0 }

/-- A secondary single click (closing gesture) inside the axes. -/
def c1e2 : Event :=
  { inaxes := true, button := some 3, dblclick := false, xdata := 0, ydata := 0 }

/-- A later primary single click at (1, 1) inside the axes. -/
def c1e3 : Event :=
  { inaxes := true, button := some 1, dblclick := false, xdata := 1, ydata := 1 }

/-- The session after one accepted click and a closing gesture (a completed
single-point ROI), in an interactive host. -/
def c1s2 : RoiState :=
  dispatch true (dispatch true c1s0 (Ev.press c1e1)) (Ev.press c1e2)

/-- A completed session whose callbacks have been disconnected. -/
def c1sDone : RoiState :=
  { RoiPoly.mk_state "b" true with cid1 := false, cid2 := false, completed := true }

/-- A drawing-state session holding two committed vertices. -/
def c1sDraw : RoiState :=
  { RoiPoly.mk_state "b" true with
      line := some ([0, 1], [0, 1])
      start_point := some (0, 0)
      previous_point := some (1, 1)
      x := [0, 1]
      y := [0, 1] }

/-- A secondary single click at (2, 2) inside the axes. -/
def c1eClose : Event :=
  { inaxes := true, button := some 3, dblclick := false, xdata := 2, ydata := 2 }

/-- A collection holding one in-progress (not completed) session. -/
def c2m : MultiRoiState :=
  { color_cycle := default_color_cycle
    roi_names := none
    rois := [("1", RoiPoly.mk_state "b" false)]
    figClosed := false }

/-- A completed session, as stored in a collection. -/
def c3done : RoiState := { RoiPoly.mk_state "b" false with completed := true }

/-- A collection with an 8-entry name list whose first 7 additions are all
completed: the next accepted addition has count 7, equal to the default
palette length. -/
def c3m7 : MultiRoiState :=
  { color_cycle := default_color_cycle
    roi_names := some ["A", "B", "C", "D", "E", "F", "G", "H"]
    rois := [("A", c3done), ("B", c3done), ("C", c3done), ("D", c3done),
             ("E", c3done), ("F", c3done), ("G", c3done)]
    figClosed := false }

/-- An empty collection with name list `["A", "B"]` and the default palette. -/
def c3m0 : MultiRoiState :=
  { color_cycle := default_color_cycle
    roi_names := some ["A", "B"]
    rois := []
    figClosed := false }

/-- A completed session holding the rectangle (1,1), (1,3), (3,3), (3,1). -/
def c5roi : RoiState :=
  { RoiPoly.mk_state "b" true with x := [1, 1, 3, 3], y := [1, 3, 3, 1], completed := true }

/-- A concrete 5x5 image. -/
def c5img : List (List ℚ) := List.replicate 5 (List.replicate 5 0)

/-- The session state after a single accepted primary click at `(x, y)`
followed by the closing gesture `e2`. -/
def singlePointRun (color : String) (cf i : Bool) (x y : ℚ) (e2 : Event) : RoiState :=
  dispatch i (dispatch i (RoiPoly.mk_state color cf)
    (Ev.press { inaxes := true, button := some 1, dblclick := false, xdata := x, ydata := y }))
    (Ev.press e2)

/-- The same completed rectangle session, used for the statistics claim. -/
def c7roi : RoiState :=
  { RoiPoly.mk_state "b" true with x := [1, 1, 3, 3], y := [1, 3, 3, 1], completed := true }

/-- A 5x5 image whose pixels all have value 5. -/
def c7img : List (List ℚ) := List.replicate 5 (List.replicate 5 5)

/-- A drawing-state session with `close_figure` set, about to receive the
closing gesture. -/
def c8s : RoiState :=
  { RoiPoly.mk_state "b" true with
      line := some ([0, 1], [0, 1])
      start_point := some (0, 0)
      previous_point := some (1, 1)
      x := [0, 1]
      y := [0, 1] }

/-- A completed single-point session used for the alias claim. -/
def c9roi : RoiState :=
  { RoiPoly.mk_state "b" true with x := [0], y := [0], completed := true }

/-- A concrete 1x1 image. -/
def c9img : List (List ℚ) := [[0]]

/-! Helper lemmas shared by several developments. -/

/-- A zero-length edge is never crossed by the scan ray. -/
lemma crossesRay_self (p v : ℚ × ℚ) : crossesRay p v v = false := by
  simp only [crossesRay, decide_eq_false_iff_not]
  rintro ⟨⟨h1, h2⟩ | ⟨h1, h2⟩, -⟩ <;> exact absurd (lt_of_le_of_lt h1 h2) (lt_irrefl _)

/-- A zero-length segment carries no boundary. -/
lemma onSegment_self (p v : ℚ × ℚ) : onSegment p v v = false := by
  simp [onSegment]

/-- The degenerate single-point polygon `[v, v]` contains no point. -/
lemma containsPoint_pair_self (v p : ℚ × ℚ) : containsPoint [v, v] p = false := by
  have hce : closedEdges [v, v] = [(v, v), (v, v)] := rfl
  simp [containsPoint, hce, crossesRay_self, onSegment_self]

/-- Zipping the reverses of two equally long lists reverses the zip. -/
lemma reverse_zip_reverse {α β : Type} (xs : List α) (ys : List β)
    (h : xs.length = ys.length) :
    xs.reverse.zip ys.reverse = (xs.zip ys).reverse := by
  induction xs generalizing ys with
  | nil =>
    cases ys with
    | nil => rfl
    | cons b u => simp at h
  | cons a t ih =>
    cases ys with
    | nil => simp at h
    | cons b u =>
      have hlen : t.length = u.length := by simpa using h
      simp only [List.reverse_cons, List.zip_cons_cons]
      rw [List.zip_append (by simpa using hlen), ih u hlen]
      simp

/-- C10: constructing a RoiPoly with the deprecated `roicolor` argument set to
a non-None value emits one non-fatal deprecation warning and uses `roicolor`
as the session display color, overriding any value passed for `color`. -/
theorem C10_roicolor_overrides_color (w : Warnings) (color rc : String) (cf : Bool) :
    (RoiPoly.init w color (some rc) cf).2.color = rc ∧
    (RoiPoly.init w color (some rc) cf).1.log
      = w.log ++ ["Use color instead of roicolor!"] := by
  exact ⟨rfl, rfl⟩

/-- C9 counterexample: the deprecated alias `getMask` emits its migration
warning on every call, not at most once: two successive calls starting from an
empty warning log leave two warnings. -/
theorem C9_counterexample_warning_every_call :
    (RoiPoly.getMask ((RoiPoly.getMask ⟨[]⟩ c9roi c9img).1) c9roi c9img).1.log.length = 2 ∧
    ¬ ((RoiPoly.getMask ((RoiPoly.getMask ⟨[]⟩ c9roi c9img).1) c9roi c9img).1.log.length ≤ 1) := by
  exact ⟨rfl, by decide⟩

/-- C9 amended: every deprecated alias (`getMask`, `displayROI`,
`displayMean`, `roipoly`) forwards to the corresponding current API returning
the identical result, and emits a non-fatal migration warning on every call
(one warning per call, because the module installs the `always`
DeprecationWarning filter), rather than at most once. -/
theorem C9_amended_aliases_forward_warn_each_call :
    (∀ (w : Warnings) (s : RoiState) (img : List (List ℚ)),
      (RoiPoly.getMask w s img).2 = RoiPoly.get_mask s img ∧
      (RoiPoly.getMask w s img).1.log.length = w.log.length + 1) ∧
    (∀ (w : Warnings) (s : RoiState),
      (RoiPoly.displayROI w s).2 = RoiPoly.display_roi s ∧
      (RoiPoly.displayROI w s).1.log.length = w.log.length + 1) ∧
    (∀ (w : Warnings) (s : RoiState) (img : List (List ℚ)),
      (RoiPoly.displayMean w s img).2 = RoiPoly.display_mean s img ∧
      (RoiPoly.displayMean w s img).1.log.length = w.log.length + 1) ∧
    (∀ (w : Warnings) (color : String) (rc : Option String) (cf : Bool),
      (roipoly w color rc cf).2 = (RoiPoly.init w color rc cf).2 ∧
      (roipoly w color rc cf).1.log.length
        = w.log.length + (match rc with | some _ => 2 | none => 1)) := by
  refine ⟨fun w s img => ⟨rfl, ?_⟩, fun w s => ⟨rfl, ?_⟩,
    fun w s img => ⟨rfl, ?_⟩, fun w color rc cf => ⟨?_, ?_⟩⟩
  · simp [RoiPoly.getMask, deprecation]
  · simp [RoiPoly.displayROI, deprecation]
  · simp [RoiPoly.displayMean, deprecation]
  · cases rc <;> rfl
  · cases rc <;> simp [roipoly, RoiPoly.init, deprecation]

/-- C4 counterexample: on the two-vertex polygon x = [1, 2], y = [3, 4] the
closed vertex list built by `get_mask` is [(1,3), (2,4), (1,3)], with the
first vertex duplicated at the end; it differs from the list
`[first vertex] + reverse(remaining vertices)` stated by the claim. -/
theorem C4_counterexample_first_vertex_duplicated :
    RoiPoly.poly_verts [1, 2] [3, 4]
        ≠ specClosedVerts (List.zip [(1 : ℚ), 2] [(3 : ℚ), 4]) ∧
    RoiPoly.poly_verts [1, 2] [3, 4] = [(1, 3), (2, 4), (1, 3)] := by
  exact ⟨by decide, rfl⟩

/-- C4 amended: for every vertex list of length n at least 1, `get_mask`
builds the closed polygon vertex list as `[first vertex]` followed by the
reverse of ALL the vertices, i.e. v0, v(n-1), ..., v1, v0, so the first
vertex appears again at the end (the claimed property of no vertex duplicated fails
only by this final duplicate of the first vertex). -/
theorem C4_amended_closed_vertex_list (xs ys : List ℚ)
    (h1 : xs ≠ []) (h2 : xs.length = ys.length) :
    RoiPoly.poly_verts xs ys
      = (xs.zip ys).headD (0, 0) :: (xs.zip ys).reverse := by
  unfold RoiPoly.poly_verts
  rw [reverse_zip_reverse xs ys h2]
  cases xs with
  | nil => exact absurd rfl h1
  | cons a t =>
    cases ys with
    | nil => simp at h2
    | cons b u => rfl

/-- C4 witness: the amended statement at the concrete input x = [1, 2],
y = [3, 4]. -/
theorem C4_amended_closed_vertex_list_witness :
    ([1, 2] : List ℚ) ≠ [] ∧
    ([1, 2] : List ℚ).length = ([3, 4] : List ℚ).length ∧
    RoiPoly.poly_verts [1, 2] [3, 4]
      = (List.zip [(1 : ℚ), 2] [(3 : ℚ), 4]).headD (0, 0)
          :: (List.zip [(1 : ℚ), 2] [(3 : ℚ), 4]).reverse :=
  ⟨by decide, by decide,
   C4_amended_closed_vertex_list [1, 2] [3, 4] (by decide) (by decide)⟩

/-- C2: an `add` trigger fired while some existing session is not completed is
ignored (no new session), so two `add` triggers in succession on a fresh
collection, with no intervening completion, produce exactly one session. -/
theorem C2_at_most_one_in_progress :
    (∀ m : MultiRoiState, (∃ p ∈ m.rois, p.2.completed = false) →
      MultiRoi.add m = m) ∧
    (∀ (cc : List String) (names : Option (List String)), cc ≠ [] →
      MultiRoi.add (MultiRoi.add ⟨cc, names, [], false⟩)
          = MultiRoi.add ⟨cc, names, [], false⟩ ∧
      (MultiRoi.add (MultiRoi.add ⟨cc, names, [], false⟩)).rois.length = 1) := by
  constructor
  · intro m hm
    obtain ⟨p, hp, hc⟩ := hm
    unfold MultiRoi.add
    rw [if_pos]
    refine ⟨List.ne_nil_of_mem hp, fun hall => ?_⟩
    have := List.all_eq_true.mp hall p hp
    rw [hc] at this
    exact Bool.false_ne_true this
  · intro cc names hcc
    have h1 : MultiRoi.add ⟨cc, names, [], false⟩
        = { color_cycle := cc, roi_names := names,
            rois := [(MultiRoi.nextName ⟨cc, names, [], false⟩,
              RoiPoly.mk_state (cc.getD (0 % cc.length) "") false)],
            figClosed := false } := by
      unfold MultiRoi.add
      rw [if_neg (by simp)]
      rfl
    have h2 : MultiRoi.add (MultiRoi.add ⟨cc, names, [], false⟩)
        = MultiRoi.add ⟨cc, names, [], false⟩ := by
      rw [h1]
      unfold MultiRoi.add
      rw [if_pos]
      exact ⟨by simp, by simp [RoiPoly.mk_state]⟩
    refine ⟨h2, ?_⟩
    rw [h2, h1]
    rfl


/-- C2 witness: the blocked second `add` on a collection holding an
in-progress session, and the fresh-collection double-`add` producing exactly
one session, at concrete inputs. -/
theorem C2_at_most_one_in_progress_witness :
    (∃ p ∈ c2m.rois, p.2.completed = false) ∧
    MultiRoi.add c2m = c2m ∧
    default_color_cycle ≠ [] ∧
    (MultiRoi.add (MultiRoi.add ⟨default_color_cycle, none, [], false⟩)).rois.length = 1 :=
  ⟨by decide, C2_at_most_one_in_progress.1 c2m (by decide), by decide,
   (C2_at_most_one_in_progress.2 default_color_cycle none (by decide)).2⟩

/-- C3 counterexample: in a collection with the default 7-color palette, an
8-entry name list and 7 completed sessions, the 8th accepted addition (count
k = 7, the palette length) does not use name-list position 7 ("H"): the code
indexes the name list by `count % len(color_cycle)` = 0, so the accepted
addition reuses the name "A" (overwriting that key) and no key "H" appears. -/
theorem C3_counterexample_name_wraps_at_palette_length :
    MultiRoi.nextName c3m7 = "A" ∧
    MultiRoi.nextName c3m7 ≠ "H" ∧
    ((MultiRoi.add c3m7).rois.map Prod.fst) = ["A", "B", "C", "D", "E", "F", "G"] ∧
    (∃ p ∈ (MultiRoi.add c3m7).rois, p.2.completed = false) := by
  exact ⟨rfl, by decide, by decide, by decide⟩

/-- C3 amended: the k-th accepted addition (0-based count k) names the new
session by position `k % palette-length` in the name list, which equals
position k exactly while k is less than the color-palette length, with the
1-based numeric fallback `str(k+1)` when that index is outside the name list;
in particular with name list ["A", "B"] and 3 additions the keys are
"A", "B", "3" in creation order. -/
theorem C3_amended_name_by_position_below_palette_length :
    (∀ (m : MultiRoiState) (ns : List String), m.roi_names = some ns →
      m.rois.length < m.color_cycle.length →
      MultiRoi.nextName m = specNameByPosition ns m.rois.length) ∧
    ((addCompleteN 3 c3m0).rois.map Prod.fst = ["A", "B", "3"]) := by
  constructor
  · intro m ns hns hlt
    simp only [MultiRoi.nextName, specNameByPosition, hns, Nat.mod_eq_of_lt hlt]
  · decide

/-- C3 witness: the amended naming rule at the concrete collection with name
list ["A", "B"] and no sessions yet (count 0, below the palette length). -/
theorem C3_amended_name_by_position_below_palette_length_witness :
    c3m0.roi_names = some ["A", "B"] ∧
    c3m0.rois.length < c3m0.color_cycle.length ∧
    MultiRoi.nextName c3m0 = specNameByPosition ["A", "B"] c3m0.rois.length :=
  ⟨rfl, by decide,
   C3_amended_name_by_position_below_palette_length.1 c3m0 ["A", "B"] rfl (by decide)⟩

/-- C1 counterexample: after a single accepted click and a closing gesture the
session has `completed = true`, yet the button-press callback is still
connected (the single-point completion path, source lines 212-214, never
disconnects the handlers) and a subsequent primary click appends a vertex,
mutating the polygon after completion. -/
theorem C1_counterexample_single_point_still_mutable :
    c1s2.completed = true ∧
    c1s2.cid1 = true ∧
    c1s2.cid2 = true ∧
    c1s2.x = [0] ∧
    (dispatch true c1s2 (Ev.press c1e3)).x = [0, 1] ∧
    (dispatch true c1s2 (Ev.press c1e3)).x ≠ c1s2.x := by
  refine ⟨rfl, rfl, rfl, rfl, rfl, by decide⟩

/-- C1 amended: once the two event handlers have been disconnected, every
subsequent motion or button-press event leaves the whole state (in particular
the vertex lists) unchanged; and the handlers are disconnected exactly by the
closing gesture when more than one vertex has been recorded, which then also
sets `completed` while leaving x and y unchanged.  (After completion of a
single-point ROI the handlers stay connected and a further primary click can
still mutate the vertex lists.) -/
theorem C1_amended_immutable_once_disconnected :
    (∀ (i : Bool) (s : RoiState) (ev : Ev), s.cid1 = false → s.cid2 = false →
      dispatch i s ev = s) ∧
    (∀ (i : Bool) (s : RoiState) (e : Event), e.inaxes = true →
      ((e.button = some 1 ∧ e.dblclick = true) ∨
        (e.button = some 3 ∧ e.dblclick = false)) →
      s.line ≠ none → ¬ (s.x.length = 1 ∧ s.y.length = 1) →
      (RoiPoly.button_press_callback i s e).completed = true ∧
      (RoiPoly.button_press_callback i s e).cid1 = false ∧
      (RoiPoly.button_press_callback i s e).cid2 = false ∧
      (RoiPoly.button_press_callback i s e).x = s.x ∧
      (RoiPoly.button_press_callback i s e).y = s.y) := by
  constructor
  · intro i s ev h1 h2
    cases ev with
    | motion e => simp [dispatch, h1]
    | press e => simp [dispatch, h2]
  · intro i s e he hbtn hline hlen
    have hnotfirst : ¬ (e.button = some 1 ∧ e.dblclick = false) := by
      rcases hbtn with ⟨hb, hd⟩ | ⟨hb, hd⟩ <;> simp [hb, hd]
    unfold RoiPoly.button_press_callback
    simp only [he, if_true]
    rw [if_neg hnotfirst, if_pos ⟨hbtn, hline⟩, if_neg hlen]
    split_ifs <;> simp

/-- C1 witness: the amended statement at concrete inputs, a disconnected
completed session receiving a further click and a two-vertex session
receiving the closing gesture. -/
theorem C1_amended_immutable_once_disconnected_witness :
    (c1sDone.cid1 = false ∧ c1sDone.cid2 = false ∧
      dispatch true c1sDone (Ev.press c1e3) = c1sDone) ∧
    (c1eClose.inaxes = true ∧ c1sDraw.line ≠ none ∧
      ¬ (c1sDraw.x.length = 1 ∧ c1sDraw.y.length = 1) ∧
      (RoiPoly.button_press_callback false c1sDraw c1eClose).completed = true ∧
      (RoiPoly.button_press_callback false c1sDraw c1eClose).x = c1sDraw.x) :=
  ⟨⟨rfl, rfl,
    C1_amended_immutable_once_disconnected.1 true c1sDone (Ev.press c1e3) rfl rfl⟩,
   ⟨rfl, by decide, by decide,
    (C1_amended_immutable_once_disconnected.2 false c1sDraw c1eClose rfl
      (Or.inr ⟨rfl, rfl⟩) (by decide) (by decide)).1,
    (C1_amended_immutable_once_disconnected.2 false c1sDraw c1eClose rfl
      (Or.inr ⟨rfl, rfl⟩) (by decide) (by decide)).2.2.2.1⟩⟩

/-- C8: on a closing gesture received while drawing, the figure is closed if
and only if the process is not running in an interactive host and the
auto-close flag `close_figure` of the session is set; in every other combination
the figure stays open. -/
theorem C8_figure_closed_iff_noninteractive_and_close_flag
    (i : Bool) (s : RoiState) (e : Event)
    (h0 : s.figClosed = false) (he : e.inaxes = true)
    (hbtn : (e.button = some 1 ∧ e.dblclick = true) ∨
      (e.button = some 3 ∧ e.dblclick = false))
    (hline : s.line ≠ none) :
    ((RoiPoly.button_press_callback i s e).figClosed = true ↔
      i = false ∧ s.close_figure = true) := by
  have hnotfirst : ¬ (e.button = some 1 ∧ e.dblclick = false) := by
    rcases hbtn with ⟨hb, hd⟩ | ⟨hb, hd⟩ <;> simp [hb, hd]
  unfold RoiPoly.button_press_callback
  simp only [he, if_true]
  rw [if_neg hnotfirst, if_pos ⟨hbtn, hline⟩]
  split_ifs with hlen hc hc <;> simp_all

/-- C8 witness: the closing gesture on a drawing session with the auto-close
flag set, in a non-interactive host, closes the figure. -/
theorem C8_figure_closed_iff_noninteractive_and_close_flag_witness :
    c8s.figClosed = false ∧ c1eClose.inaxes = true ∧ c8s.line ≠ none ∧
    ((RoiPoly.button_press_callback false c8s c1eClose).figClosed = true ↔
      false = false ∧ c8s.close_figure = true) :=
  ⟨rfl, rfl, by decide,
   C8_figure_closed_iff_noninteractive_and_close_flag false c8s c1eClose rfl rfl
     (Or.inr ⟨rfl, rfl⟩) (by decide)⟩

/-- A session holding exactly one vertex produces an all-false mask: the
degenerate polygon `[(x, y), (x, y)]` contains no grid point. -/
lemma get_mask_single_point_all_false (x y : ℚ) (s : RoiState)
    (hx : s.x = [x]) (hy : s.y = [y]) (img : List (List ℚ)) :
    ∀ row ∈ RoiPoly.get_mask s img, ∀ b ∈ row, b = false := by
  intro row hrow b hb
  simp only [RoiPoly.get_mask, List.mem_map] at hrow
  obtain ⟨r, hr, rfl⟩ := hrow
  simp only [List.mem_map] at hb
  obtain ⟨c, hc, rfl⟩ := hb
  rw [hx, hy]
  have hpv : RoiPoly.poly_verts [x] [y] = [(x, y), (x, y)] := rfl
  rw [hpv]
  exact containsPoint_pair_self (x, y) _

/-- C6: a single accepted primary click followed by a closing gesture yields a
session with `completed = true` whose `get_roi_coordinates` returns exactly
one pair, and `get_mask` on any 2D image returns a mask with no true entry. -/
theorem C6_single_click_then_close (color : String) (cf i : Bool) (x y : ℚ)
    (e2 : Event) (img : List (List ℚ)) (he : e2.inaxes = true)
    (hbtn : (e2.button = some 1 ∧ e2.dblclick = true) ∨
      (e2.button = some 3 ∧ e2.dblclick = false)) :
    (singlePointRun color cf i x y e2).completed = true ∧
    RoiPoly.get_roi_coordinates (singlePointRun color cf i x y e2) = [(x, y)] ∧
    ∀ row ∈ RoiPoly.get_mask (singlePointRun color cf i x y e2) img,
      ∀ b ∈ row, b = false := by
  have hs1 : dispatch i (RoiPoly.mk_state color cf)
      (Ev.press { inaxes := true, button := some 1, dblclick := false,
                  xdata := x, ydata := y })
      = { RoiPoly.mk_state color cf with
            line := some ([x, x], [y, y])
            start_point := some (x, y)
            previous_point := some (x, y)
            x := [x]
            y := [y] } := rfl
  have hnotfirst : ¬ (e2.button = some 1 ∧ e2.dblclick = false) := by
    rcases hbtn with ⟨hb, hd⟩ | ⟨hb, hd⟩ <;> simp [hb, hd]
  have hfields : (singlePointRun color cf i x y e2).completed = true ∧
      (singlePointRun color cf i x y e2).x = [x] ∧
      (singlePointRun color cf i x y e2).y = [y] := by
    unfold singlePointRun
    rw [hs1]
    simp only [dispatch, RoiPoly.mk_state, if_true]
    unfold RoiPoly.button_press_callback
    simp only [he, if_true]
    rw [if_neg hnotfirst, if_pos ⟨hbtn, by simp⟩,
      if_pos (⟨rfl, rfl⟩ : List.length [x] = 1 ∧ List.length [y] = 1)]
    split_ifs <;> exact ⟨rfl, rfl, rfl⟩
  refine ⟨hfields.1, ?_, ?_⟩
  · unfold RoiPoly.get_roi_coordinates
    rw [hfields.2.1, hfields.2.2]
    rfl
  · exact get_mask_single_point_all_false x y _ hfields.2.1 hfields.2.2 img

/-- C6 witness: the single-point run at a concrete click (2, 3), closed by a
secondary click, on a concrete 2x2 image. -/
theorem C6_single_click_then_close_witness :
    c1eClose.inaxes = true ∧
    (singlePointRun "b" true false 2 3 c1eClose).completed = true ∧
    RoiPoly.get_roi_coordinates (singlePointRun "b" true false 2 3 c1eClose)
      = [(2, 3)] ∧
    ∀ row ∈ RoiPoly.get_mask (singlePointRun "b" true false 2 3 c1eClose)
        [[0, 0], [0, 0]], ∀ b ∈ row, b = false :=
  ⟨rfl,
   (C6_single_click_then_close "b" true false 2 3 c1eClose [[0, 0], [0, 0]]
     rfl (Or.inr ⟨rfl, rfl⟩)).1,
   (C6_single_click_then_close "b" true false 2 3 c1eClose [[0, 0], [0, 0]]
     rfl (Or.inr ⟨rfl, rfl⟩)).2.1,
   (C6_single_click_then_close "b" true false 2 3 c1eClose [[0, 0], [0, 0]]
     rfl (Or.inr ⟨rfl, rfl⟩)).2.2⟩

/-- A horizontal edge contributes no ray crossing. -/
lemma crossesRay_horiz (c r x1 x2 k : ℚ) :
    crossesRay (c, r) (x1, k) (x2, k) = false := by
  simp only [crossesRay, decide_eq_false_iff_not]
  rintro ⟨⟨h1, h2⟩ | ⟨h1, h2⟩, -⟩ <;> exact absurd (lt_of_le_of_lt h1 h2) (lt_irrefl _)

/-- A vertical edge is crossed exactly when the scan row is in its half-open
vertical span and the point lies strictly to its left. -/
lemma crossesRay_vert (c r x k1 k2 : ℚ) :
    crossesRay (c, r) (x, k1) (x, k2)
      = decide ((k1 ≤ r ∧ r < k2 ∨ k2 ≤ r ∧ r < k1) ∧ c < x) := by
  have hth : x + (r - k1) * (x - x) / (k2 - k1) = x := by ring
  simp only [crossesRay, decide_eq_decide]
  rw [hth]

/-- Membership in a left-to-right horizontal segment. -/
lemma onSegment_horiz (c r x1 x2 k : ℚ) (h : x1 < x2) :
    onSegment (c, r) (x1, k) (x2, k) = decide (r = k ∧ x1 ≤ c ∧ c ≤ x2) := by
  simp only [onSegment, decide_eq_decide, min_eq_left h.le, max_eq_right h.le,
    min_self, max_self]
  constructor
  · rintro ⟨-, -, h3, h4, h5, h6⟩
    exact ⟨le_antisymm h6 h5, h3, h4⟩
  · rintro ⟨h1, h2, h3⟩
    exact ⟨fun hab => absurd (congrArg Prod.fst hab) (ne_of_lt h),
      by rw [h1]; ring, h2, h3, h1.ge, h1.le⟩

/-- Membership in a right-to-left horizontal segment. -/
lemma onSegment_horiz' (c r x1 x2 k : ℚ) (h : x2 < x1) :
    onSegment (c, r) (x1, k) (x2, k) = decide (r = k ∧ x2 ≤ c ∧ c ≤ x1) := by
  simp only [onSegment, decide_eq_decide, min_eq_right h.le, max_eq_left h.le,
    min_self, max_self]
  constructor
  · rintro ⟨-, -, h3, h4, h5, h6⟩
    exact ⟨le_antisymm h6 h5, h3, h4⟩
  · rintro ⟨h1, h2, h3⟩
    exact ⟨fun hab => absurd (congrArg Prod.fst hab) (ne_of_gt h),
      by rw [h1]; ring, h2, h3, h1.ge, h1.le⟩

/-- Membership in a bottom-to-top vertical segment. -/
lemma onSegment_vert (c r x k1 k2 : ℚ) (h : k1 < k2) :
    onSegment (c, r) (x, k1) (x, k2) = decide (c = x ∧ k1 ≤ r ∧ r ≤ k2) := by
  simp only [onSegment, decide_eq_decide, min_eq_left h.le, max_eq_right h.le,
    min_self, max_self]
  constructor
  · rintro ⟨-, -, h3, h4, h5, h6⟩
    exact ⟨le_antisymm h4 h3, h5, h6⟩
  · rintro ⟨h1, h2, h3⟩
    exact ⟨fun hab => absurd (congrArg Prod.snd hab) (ne_of_lt h),
      by rw [h1]; ring, h1.ge, h1.le, h2, h3⟩

/-- Membership in a top-to-bottom vertical segment. -/
lemma onSegment_vert' (c r x k1 k2 : ℚ) (h : k2 < k1) :
    onSegment (c, r) (x, k1) (x, k2) = decide (c = x ∧ k2 ≤ r ∧ r ≤ k1) := by
  simp only [onSegment, decide_eq_decide, min_eq_right h.le, max_eq_left h.le,
    min_self, max_self]
  constructor
  · rintro ⟨-, -, h3, h4, h5, h6⟩
    exact ⟨le_antisymm h4 h3, h5, h6⟩
  · rintro ⟨h1, h2, h3⟩
    exact ⟨fun hab => absurd (congrArg Prod.snd hab) (ne_of_gt h),
      by rw [h1]; ring, h1.ge, h1.le, h2, h3⟩

/-- The closed rectangle polygon built by `get_mask` from x = [1, 1, 3, 3],
y = [1, 3, 3, 1] contains exactly the points of [1, 3] x [1, 3], boundary
included. -/
lemma contains_rect (c r : ℚ) :
    containsPoint (RoiPoly.poly_verts [1, 1, 3, 3] [1, 3, 3, 1]) (c, r)
      = decide (1 ≤ c ∧ c ≤ 3 ∧ 1 ≤ r ∧ r ≤ 3) := by
  have hpv : RoiPoly.poly_verts [1, 1, 3, 3] [1, 3, 3, 1]
      = [(1, 1), (3, 1), (3, 3), (1, 3), (1, 1)] := rfl
  have hce : closedEdges [((1 : ℚ), (1 : ℚ)), (3, 1), (3, 3), (1, 3), (1, 1)]
      = [((1, 1), (3, 1)), ((3, 1), (3, 3)), ((3, 3), (1, 3)),
         ((1, 3), (1, 1)), ((1, 1), (1, 1))] := rfl
  have h1 : crossesRay (c, r) (1, 1) (3, 1) = false := crossesRay_horiz c r 1 3 1
  have h2 : crossesRay (c, r) (3, 1) (3, 3)
      = decide ((1 ≤ r ∧ r < 3 ∨ 3 ≤ r ∧ r < 1) ∧ c < 3) := crossesRay_vert c r 3 1 3
  have h3 : crossesRay (c, r) (3, 3) (1, 3) = false := crossesRay_horiz c r 3 1 3
  have h4 : crossesRay (c, r) (1, 3) (1, 1)
      = decide ((3 ≤ r ∧ r < 1 ∨ 1 ≤ r ∧ r < 3) ∧ c < 1) := crossesRay_vert c r 1 3 1
  have h5 : crossesRay (c, r) (1, 1) (1, 1) = false := crossesRay_self _ _
  have g1 : onSegment (c, r) (1, 1) (3, 1) = decide (r = 1 ∧ 1 ≤ c ∧ c ≤ 3) :=
    onSegment_horiz c r 1 3 1 (by norm_num)
  have g2 : onSegment (c, r) (3, 1) (3, 3) = decide (c = 3 ∧ 1 ≤ r ∧ r ≤ 3) :=
    onSegment_vert c r 3 1 3 (by norm_num)
  have g3 : onSegment (c, r) (3, 3) (1, 3) = decide (r = 3 ∧ 1 ≤ c ∧ c ≤ 3) :=
    onSegment_horiz' c r 3 1 3 (by norm_num)
  have g4 : onSegment (c, r) (1, 3) (1, 1) = decide (c = 1 ∧ 1 ≤ r ∧ r ≤ 3) :=
    onSegment_vert' c r 1 3 1 (by norm_num)
  have g5 : onSegment (c, r) (1, 1) (1, 1) = false := onSegment_self _ _
  rw [hpv]
  unfold containsPoint
  rw [hce]
  simp only [List.countP_cons, List.countP_nil, List.any_cons, List.any_nil,
    h1, h2, h3, h4, h5, g1, g2, g3, g4, g5, Bool.false_eq_true, if_false,
    if_true, Bool.or_false, Bool.false_or, decide_eq_true_eq, Nat.zero_add,
    Nat.add_zero]
  rw [Bool.eq_iff_iff]
  simp only [Bool.or_eq_true, decide_eq_true_eq]
  by_cases hp2 : ((1 ≤ r ∧ r < 3 ∨ 3 ≤ r ∧ r < 1) ∧ c < 3)
  · by_cases hp4 : ((3 ≤ r ∧ r < 1 ∨ 1 ≤ r ∧ r < 3) ∧ c < 1)
    · rw [if_pos hp2, if_pos hp4]
      norm_num
      have hc1 : c < 1 := hp4.2
      constructor
      · rintro (⟨h1', h2', h3'⟩ | ⟨h1', h2', h3'⟩ | ⟨h1', h2', h3'⟩ | ⟨h1', h2', h3'⟩) <;>
          (exfalso; linarith)
      · rintro ⟨hx, -, -, -⟩
        exfalso; linarith
    · rw [if_pos hp2, if_neg hp4]
      norm_num
      obtain ⟨hg, hc3⟩ := hp2
      rcases hg with ⟨hg1, hg2⟩ | ⟨hg1, hg2⟩
      · have hc1 : ¬ c < 1 := fun hlt => hp4 ⟨Or.inr ⟨hg1, hg2⟩, hlt⟩
        exact ⟨by linarith, by linarith, by linarith, by linarith⟩
      · exfalso; linarith
  · by_cases hp4 : ((3 ≤ r ∧ r < 1 ∨ 1 ≤ r ∧ r < 3) ∧ c < 1)
    · rw [if_neg hp2, if_pos hp4]
      obtain ⟨hg, hc1⟩ := hp4
      rcases hg with ⟨hg1, hg2⟩ | ⟨hg1, hg2⟩
      · exfalso; linarith
      · exact (hp2 ⟨Or.inl ⟨hg1, hg2⟩, by linarith⟩).elim
    · rw [if_neg hp2, if_neg hp4]
      norm_num
      constructor
      · rintro (⟨h1', h2', h3'⟩ | ⟨h1', h2', h3'⟩ | ⟨h1', h2', h3'⟩ | ⟨h1', h2', h3'⟩)
        · exact ⟨h2', h3', by linarith, by linarith⟩
        · exact ⟨by linarith, by linarith, h2', h3'⟩
        · exact ⟨h2', h3', by linarith, by linarith⟩
        · exact ⟨by linarith, by linarith, h2', h3'⟩
      · rintro ⟨hc1, hc3, hr1, hr3⟩
        by_cases hrr : r < 3
        · by_cases hcc : c < 3
          · exact (hp2 ⟨Or.inl ⟨hr1, hrr⟩, hcc⟩).elim
          · exact Or.inr (Or.inl ⟨le_antisymm hc3 (not_lt.mp hcc), hr1, hr3⟩)
        · exact Or.inr (Or.inr (Or.inl ⟨le_antisymm hr3 (not_lt.mp hrr), hc1, hc3⟩))

/-- C5: on a completed ROI with rectangle vertices (1,1), (1,3), (3,3), (3,1)
and any 5x5 image, `get_mask` returns the 5x5 boolean mask that is true
exactly on the 9 pixels with row and column in [1, 3] (grid points on the
polygon boundary counted as inside) and false elsewhere. -/
theorem C5_rect_mask (img : List (List ℚ)) (h1 : img.length = 5)
    (h2 : ∀ row ∈ img, row.length = 5) :
    RoiPoly.get_mask c5roi img =
      [[false, false, false, false, false],
       [false, true, true, true, false],
       [false, true, true, true, false],
       [false, true, true, true, false],
       [false, false, false, false, false]] := by
  have hhead : (img.getD 0 []).length = 5 := by
    cases img with
    | nil => simp at h1
    | cons a t => exact h2 a (List.mem_cons_self a t)
  have hx : c5roi.x = [1, 1, 3, 3] := rfl
  have hy : c5roi.y = [1, 3, 3, 1] := rfl
  unfold RoiPoly.get_mask
  rw [h1, hhead, hx, hy]
  simp only [contains_rect]
  decide

/-- C5 witness: the rectangle mask on a concrete 5x5 image. -/
theorem C5_rect_mask_witness :
    c5img.length = 5 ∧ (∀ row ∈ c5img, row.length = 5) ∧
    RoiPoly.get_mask c5roi c5img =
      [[false, false, false, false, false],
       [false, true, true, true, false],
       [false, true, true, true, false],
       [false, true, true, true, false],
       [false, false, false, false, false]] :=
  ⟨rfl, by decide, C5_rect_mask c5img rfl (by decide)⟩

/-- The sum of a list whose members all equal `a`. -/
lemma list_sum_const (vs : List ℚ) (a : ℚ) (h : ∀ v ∈ vs, v = a) :
    vs.sum = a * vs.length := by
  induction vs with
  | nil => simp
  | cons b t ih =>
    have hb : b = a := h b (List.mem_cons_self b t)
    have ht : t.sum = a * t.length := ih fun v hv => h v (List.mem_cons_of_mem b hv)
    simp only [List.sum_cons, List.length_cons, hb, ht]
    push_cast
    ring

/-- The mean of a non-empty constant list. -/
lemma npMean_const (vs : List ℚ) (a : ℚ) (h : ∀ v ∈ vs, v = a) (hne : vs ≠ []) :
    npMean vs = a := by
  have hlen : ((vs.length : ℚ)) ≠ 0 := by
    have := List.length_pos.mpr hne
    positivity
  unfold npMean
  rw [list_sum_const vs a h]
  exact mul_div_cancel_right₀ a hlen

/-- The population variance is non-negative. -/
lemma npVar_nonneg (vs : List ℚ) : 0 ≤ npVar vs := by
  unfold npVar
  apply div_nonneg
  · apply List.sum_nonneg
    intro x hx
    obtain ⟨v, hv, rfl⟩ := List.mem_map.mp hx
    positivity
  · exact Nat.cast_nonneg _

/-- The population variance of a non-empty constant list is zero. -/
lemma npVar_const_zero (vs : List ℚ) (a : ℚ) (h : ∀ v ∈ vs, v = a) (hne : vs ≠ []) :
    npVar vs = 0 := by
  unfold npVar
  have hz : (vs.map fun v => (v - npMean vs) ^ 2).sum = 0 := by
    apply List.sum_eq_zero
    intro x hx
    obtain ⟨v, hv, rfl⟩ := List.mem_map.mp hx
    rw [npMean_const vs a h hne, h v hv]
    ring
  rw [hz, zero_div]

/-- The square of `np.std` recovers the population variance. -/
lemma npStd_sq (vs : List ℚ) : npStd vs ^ 2 = ((npVar vs : ℚ) : ℝ) := by
  unfold npStd
  exact Real.sq_sqrt (by exact_mod_cast npVar_nonneg vs)

/-- C7: `get_mean_and_std` returns the mean and the population standard
deviation (divide by N, not N-1) of the pixel values at positions where
`get_mask` is true: the returned mean is the sum of the extracted values over
their number, the returned deviation is non-negative and its square times N
equals the sum of squared deviations from the returned mean; on an extraction
whose values are all 5 (a uniform image of value 5 under a non-empty mask)
the result is exactly (5, 0). -/
theorem C7_population_stats :
    (∀ (s : RoiState) (img : List (List ℚ)),
      extract (RoiPoly.get_mask s img) img ≠ [] →
      (RoiPoly.get_mean_and_std s img).1
          = (extract (RoiPoly.get_mask s img) img).sum
            / ((extract (RoiPoly.get_mask s img) img).length : ℚ) ∧
      0 ≤ (RoiPoly.get_mean_and_std s img).2 ∧
      (RoiPoly.get_mean_and_std s img).2 ^ 2
          * ((extract (RoiPoly.get_mask s img) img).length : ℝ)
        = ((((extract (RoiPoly.get_mask s img) img).map
            fun v => (v - (RoiPoly.get_mean_and_std s img).1) ^ 2).sum : ℚ) : ℝ)) ∧
    (∀ (s : RoiState) (img : List (List ℚ)),
      (∀ v ∈ extract (RoiPoly.get_mask s img) img, v = 5) →
      extract (RoiPoly.get_mask s img) img ≠ [] →
      RoiPoly.get_mean_and_std s img = (5, 0)) := by
  constructor
  · intro s img hne
    have e1 : (RoiPoly.get_mean_and_std s img).1
        = npMean (extract (RoiPoly.get_mask s img) img) := rfl
    have e2 : (RoiPoly.get_mean_and_std s img).2
        = npStd (extract (RoiPoly.get_mask s img) img) := rfl
    have hlen : (((extract (RoiPoly.get_mask s img) img).length : ℝ)) ≠ 0 := by
      have := List.length_pos.mpr hne
      positivity
    refine ⟨e1, ?_, ?_⟩
    · rw [e2]
      exact Real.sqrt_nonneg _
    · rw [e1, e2, npStd_sq]
      unfold npVar
      push_cast
      field_simp
  · intro s img hall hne
    have hm : npMean (extract (RoiPoly.get_mask s img) img) = 5 :=
      npMean_const _ 5 hall hne
    have hv : npVar (extract (RoiPoly.get_mask s img) img) = 0 :=
      npVar_const_zero _ 5 hall hne
    have hs : npStd (extract (RoiPoly.get_mask s img) img) = 0 := by
      unfold npStd
      rw [hv]
      simp
    unfold RoiPoly.get_mean_and_std
    rw [hm, hs]

/-- The extraction from the rectangle mask over the uniform 5x5 image of
value 5: exactly the nine pixels of the 3x3 block, each with value 5. -/
lemma c7_extract_eval :
    extract (RoiPoly.get_mask c7roi c7img) c7img = List.replicate 9 5 := by
  have hx : c7roi.x = [1, 1, 3, 3] := rfl
  have hy : c7roi.y = [1, 3, 3, 1] := rfl
  have hlen : c7img.length = 5 := rfl
  have hhd : (c7img.getD 0 []).length = 5 := rfl
  unfold RoiPoly.get_mask
  rw [hx, hy, hlen, hhd]
  simp only [contains_rect]
  decide

/-- C7 witness: the statistics on the rectangle ROI over the concrete uniform
5x5 image of value 5. -/
theorem C7_population_stats_witness :
    (∀ v ∈ extract (RoiPoly.get_mask c7roi c7img) c7img, v = 5) ∧
    extract (RoiPoly.get_mask c7roi c7img) c7img ≠ [] ∧
    RoiPoly.get_mean_and_std c7roi c7img = (5, 0) :=
  ⟨fun v hv => by rw [c7_extract_eval] at hv; exact List.eq_of_mem_replicate hv,
   by rw [c7_extract_eval]; decide,
   C7_population_stats.2 c7roi c7img
     (fun v hv => by rw [c7_extract_eval] at hv; exact List.eq_of_mem_replicate hv)
     (by rw [c7_extract_eval]; decide)⟩
